import Mathlib

/-!
Verification of the metadata-driven list/editor engine of the tibba web
frontend, as a shallow embedding in Lean.

Embedded sources:
* `src/web/src/components/entity-form.tsx` — the Editor Engine (diff
  computation, submit, validation schema, form-item filtering).
* `src/unnamed/part_013` — the List Engine `DataTable` component
  (permission evaluation, orders string, page fetch with sticky page
  count, page-size persistence, loading guard).
* `src/web/src/state/entity.ts` — the entity store (`createEntity`
  parameter construction).

JavaScript values bound by the form are modelled by `JsValue`; records
(`Record<string, unknown>` objects) are association lists with
first-match lookup, which coincides with JavaScript object semantics
when keys are duplicate-free (`Record.WFKeys`).
-/

/-- The universe of JavaScript values the forms bind: strings (text,
datetime, editor, file contents), numbers (number, status), booleans,
`null`, `undefined`, and arrays of strings (category `texts`).
lodash `isEqual` is structural (deep) equality, which on this universe
is exactly decidable equality. -/
inductive JsValue where
  | str (s : String)
  | num (q : ℚ)
  | bool (b : Bool)
  | null
  | undef
  | strs (l : List String)
deriving DecidableEq, Repr

/-- lodash `isNil`: true exactly for `null` and `undefined`. -/
def JsValue.isNil : JsValue → Bool
  | .null => true
  | .undef => true
  | _ => false

/-- lodash `isString`. -/
def JsValue.isString : JsValue → Bool
  | .str _ => true
  | _ => false

/-- JavaScript truthiness restricted to strings: `if (value)` on a
string is true exactly when the string is nonempty. -/
def JsValue.isTruthyStr : JsValue → Bool
  | .str s => !s.isEmpty
  | _ => false

/-- A JavaScript object (`Record<string, unknown>`) as an association
list. A genuine JS object has duplicate-free keys (`Record.WFKeys`). -/
abbrev Record := List (String × JsValue)

/-- `r[k]` in JavaScript: the value bound to `k`, `undefined` when the
key is absent. First-match lookup (JS objects never have duplicates). -/
def Record.getJs : Record → String → JsValue
  | [], _ => .undef
  | (k', v) :: rest, k => if k' = k then v else Record.getJs rest k

/-- The keys of a record, in order (`Object.keys`). -/
def Record.keys (r : Record) : List String :=
  r.map (·.1)

/-- A well-formed JS object: duplicate-free keys. -/
def Record.WFKeys (r : Record) : Prop :=
  r.keys.Nodup

/-- `r[k] = v` in JavaScript: replaces the binding of `k` in place, or
appends a new binding when `k` is absent. -/
def Record.setJs : Record → String → JsValue → Record
  | [], k, v => [(k, v)]
  | (k', v') :: rest, k, v =>
      if k' = k then (k, v) :: rest else (k', v') :: Record.setJs rest k v

/-- `entity-form.tsx` `onSubmit`, lines 149–154: the update payload.
`Object.keys(values).forEach(key => { if (!isEqual(values[key],
entityData[key])) updateData[key] = values[key] })`. Keeps the entries
of `values` whose value differs (deep inequality) from the baseline's
value at the same key. -/
def computeDiff (values entityData : Record) : Record :=
  values.filter (fun kv => decide (kv.2 ≠ entityData.getJs kv.1))

/-- `entity-form.tsx` `onSubmit`, lines 171–173: after a successful
update the accepted values are folded back into the baseline:
`keys.forEach(key => { entityData[key] = updateData[key] })`. -/
def foldBack (entityData updateData : Record) : Record :=
  updateData.foldl (fun r kv => r.setJs kv.1 kv.2) entityData


/-! ## Editor Engine (`entity-form.tsx`, `state/entity.ts`) -/

/-- `entity-form.tsx` line 69: identifier `"0"` selects create mode. -/
def isCreated (id : String) : Bool := id == "0"

/-- `state/entity.ts` lines 145–163, `createEntity`: the POST body is
built from the bound values by skipping the `id` key, `null`/`undefined`
values, and falsy (empty) strings; every other binding is kept as-is. -/
def createEntityParams (data : Record) : Record :=
  data.filter (fun kv =>
    !(kv.1 == "id") && !kv.2.isNil && (!kv.2.isString || kv.2.isTruthyStr))

/-- A network request issued by the Editor Engine: `createEntity`
(POST) or `updateEntity` (PATCH with the diff as its body). -/
inductive NetworkCall where
  | create (payload : Record)
  | patch (id : String) (payload : Record)
deriving DecidableEq, Repr

/-- Editor Engine state (`entity-form.tsx` component state).
`pending` and `inFlight` make the awaited request explicit: `pending`
is the request issued and not yet completed, `inFlight` counts
outstanding requests (the property claimed is that it never exceeds
one). -/
structure EditorState where
  id : String
  entityData : Record
  processing : Bool
  tips : String
  pending : Option NetworkCall
  inFlight : ℕ
deriving DecidableEq, Repr

/-- The "nothing changed" toast shown for an empty diff
(`entity-form.tsx` lines 156–161). -/
def nothingChangedNotice : String := "数据未修改"

/-- Outcome of running `onSubmit` up to its first await boundary. -/
structure SubmitOutcome where
  state : EditorState
  call : Option NetworkCall
  toastMsg : Option String
deriving DecidableEq, Repr

/-- `entity-form.tsx` `onSubmit` lines 145–167, up to the await:
the `processing` guard drops re-entrant submits; the diff against the
baseline is computed; an empty diff aborts with the "nothing changed"
toast and no request; otherwise `processing` is set and either a
creation request with the full bound values (create mode) or a partial
update with only the changed keys (update mode) is issued. -/
def submitStart (s : EditorState) (values : Record) : SubmitOutcome :=
  if s.processing then ⟨s, none, none⟩
  else
    let updateData := computeDiff values s.entityData
    if updateData.isEmpty then ⟨s, none, some nothingChangedNotice⟩
    else if isCreated s.id then
      let call := NetworkCall.create (createEntityParams values)
      ⟨{ s with tips := "", processing := true,
                pending := some call, inFlight := s.inFlight + 1 },
        some call, none⟩
    else
      let call := NetworkCall.patch s.id updateData
      ⟨{ s with tips := "", processing := true,
                pending := some call, inFlight := s.inFlight + 1 },
        some call, none⟩

/-- `entity-form.tsx` `onSubmit` lines 166–183, after the await: on a
successful update the accepted keys are folded back into the baseline
and the success tip lists them; on a successful create only the tip is
set; the `finally` clause always clears `processing`. -/
def submitFinish (s : EditorState) (ok : Bool) : EditorState :=
  match s.pending with
  | none => s
  | some (NetworkCall.create _) =>
      let s' := if ok then { s with tips := "已成功创建数据。" } else s
      { s' with processing := false, pending := none, inFlight := s.inFlight - 1 }
  | some (NetworkCall.patch _ d) =>
      let s' :=
        if ok then
          { s with entityData := foldBack s.entityData d,
                   tips := "已成功更新数据，字段为：" ++
                     String.intercalate "," (Record.keys d) ++ "。" }
        else s
      { s' with processing := false, pending := none, inFlight := s.inFlight - 1 }

/-- One whole submission, with the awaited request completing with
success flag `ok`: the sequential composition of `submitStart` and,
when a request was issued, `submitFinish`. Returns the final state, the
request issued (if any) and the toast shown (if any). -/
def onSubmit (s : EditorState) (values : Record) (ok : Bool) :
    EditorState × Option NetworkCall × Option String :=
  let r := submitStart s values
  match r.call with
  | none => (r.state, none, r.toastMsg)
  | some c => (submitFinish r.state ok, some c, r.toastMsg)

/-- Events of one Editor instance: a submit attempt with the current
bound values, or completion of the outstanding request. -/
inductive EditorEvent where
  | submit (values : Record)
  | complete (ok : Bool)

/-- Editor transition: a submit attempt runs `onSubmit` up to its await
boundary; a completion (which only exists for an issued request)
resolves the awaited call. -/
def editorStep (s : EditorState) : EditorEvent → EditorState
  | .submit values => (submitStart s values).state
  | .complete ok => if s.inFlight = 0 then s else submitFinish s ok

/-- Editor state at mount: no submission in progress. -/
def initEditorState (id : String) (entityData : Record) : EditorState :=
  ⟨id, entityData, false, "", none, 0⟩

/-- Run an Editor instance over a sequence of events. -/
def runEditor (s₀ : EditorState) (evs : List EditorEvent) : EditorState :=
  evs.foldl editorStep s₀

/-- The editor's re-entrancy invariant: the in-flight count mirrors the
`processing` flag (and a pending request exists exactly while
processing). -/
def EditorInv (s : EditorState) : Prop :=
  s.inFlight = (if s.processing then 1 else 0) ∧
    (s.pending.isSome ↔ s.processing = true)


/-! ## List Engine (`part_013`, `DataTable`) -/

/-- One entry of tanstack `SortingState`: a column id and a descending
flag. -/
structure SortEntry where
  id : String
  desc : Bool
deriving DecidableEq, Repr

/-- `part_013` lines 280–287: the orders string sent with a page fetch:
`sorting.map(item => item.desc ? `-${item.id}` : item.id).join(",")`. -/
def ordersString (sorting : List SortEntry) : String :=
  String.intercalate "," (sorting.map (fun item => if item.desc then "-" ++ item.id else item.id))

/-- The render of one sort entry: field name with a leading `-` when
descending. -/
def sortEntryStr (e : SortEntry) : String :=
  if e.desc then "-" ++ e.id else e.id

/-- Modelled from the spec: "an orders string built by mapping each
sort entry to its field name (prefixed `-` if descending) joined by
commas" — written as direct recursion, to be compared with the
source-derived `ordersString`. -/
def ordersSpec : List SortEntry → String
  | [] => ""
  | [e] => sortEntryStr e
  | e :: f :: rest => sortEntryStr e ++ "," ++ ordersSpec (f :: rest)

/-- Helper: the tail of a separated join — separator before each
element. -/
def sepJoin (s : String) : List String → String
  | [] => ""
  | a :: as => s ++ a ++ sepJoin s as


/-! ### Header-click sort toggling

The header click handler delegates to `column.toggleSorting` of the
external dependency `@tanstack/react-table` v8, which the repository
does not vendor. -/

/-- Modelled from `@tanstack/react-table` v8 (`RowSorting` feature,
`toggleSorting`), specialised to the call site at `part_013` line 82:
a boolean `desc` argument is always supplied — so the library's
sort-removal branch, reachable only when `desc` is absent, can never
fire — and no `multi` flag is passed. The remaining behaviour: if the
column's existing sort entry is the last entry, toggle its direction
in place, otherwise replace the whole sorting state with a single
entry for this column. -/
def toggleSorting (old : List SortEntry) (colId : String) (desc : Bool) : List SortEntry :=
  match old.findIdx? (fun d => d.id == colId) with
  | some i =>
      if i + 1 = old.length then
        old.map (fun d => if d.id == colId then { d with desc := desc } else d)
      else
        [⟨colId, desc⟩]
  | none => [⟨colId, desc⟩]

/-- `column.getIsSorted() === "asc"`: the column has a sort entry and it
is ascending. -/
def getIsSortedAsc (old : List SortEntry) (colId : String) : Bool :=
  match old.find? (fun d => d.id == colId) with
  | some e => !e.desc
  | none => false

/-- `part_013` lines 81–83: a click on a sortable column header runs
`column.toggleSorting(column.getIsSorted() === "asc")`. -/
def headerClick (old : List SortEntry) (colId : String) : List SortEntry :=
  toggleSorting old colId (getIsSortedAsc old colId)

/-- `n` consecutive clicks on the header of column `c`, starting from
the unsorted state. -/
def clickIter (c : String) (n : ℕ) : List SortEntry :=
  (fun l => headerClick l c)^[n] []

/-! ### Page-size persistence (`part_013` lines 152–164, 452–469) -/

/-- Decimal digit accumulator. -/
def digitsToNat (l : List Char) : ℕ :=
  l.foldl (fun n c => n * 10 + (c.toNat - 48)) 0

/-- An unsigned decimal literal body: digits, optionally split by one
dot. `none` models NaN. -/
def parseDecimal (l : List Char) : Option ℚ :=
  match l.splitOn '.' with
  | [ip] =>
      if ip.all (·.isDigit) && !ip.isEmpty then some (mkRat (digitsToNat ip) 1) else none
  | [ip, fp] =>
      if ip.all (·.isDigit) && fp.all (·.isDigit) && !(ip.isEmpty && fp.isEmpty) then
        some (mkRat (digitsToNat ip * 10 ^ fp.length + digitsToNat fp) (10 ^ fp.length))
      else none
  | _ => none

/-- JavaScript `Number(s)` restricted to the strings that reach this
code path (decimal literals with an optional sign, and the empty
string, which converts to `0`); `none` models NaN. -/
def jsNumber (s : String) : Option ℚ :=
  match s.data with
  | [] => some 0
  | '-' :: rest => (parseDecimal rest).map (fun q => -q)
  | l => parseDecimal l

/-- `part_013` lines 153–160, `getPageSize`: reads the stored page
size; `Number(null) = 0`, so a missing value, a non-numeric value and
any value `≤ 0` all fall back to the default `10`. -/
def getPageSize (stored : Option String) : ℚ :=
  let n : Option ℚ :=
    match stored with
    | none => some 0
    | some s => jsNumber s
  match n with
  | none => 10
  | some q => if q ≤ 0 then 10 else q


/-! ### List Engine state machine -/

/-- Body of a `listEntities` response (`state/entity.ts` lines 66–76):
rows and a server-reported page count. -/
structure ListResult where
  items : List Record
  page_count : ℤ
deriving DecidableEq, Repr

/-- Query of a `listEntities` page fetch (`part_013` lines 288–295). -/
structure ListRequest where
  page_size : ℚ
  page : ℤ
  keyword : String
  orders : String
  counted : Bool
deriving DecidableEq, Repr

/-- `DataTable` component state (`part_013` lines 176–193), restricted
to the fields the page-fetch effect reads and writes. `pending` is the
request issued and not yet completed; `inFlight` counts outstanding
page fetches. -/
structure ListState where
  loading : Bool
  inFlight : ℕ
  pending : Option ListRequest
  pageIndex : ℤ
  pageSize : ℚ
  pageCount : ℤ
  keyword : String
  sorting : List SortEntry
  items : List Record
deriving DecidableEq, Repr

/-- `part_013` lines 288–295: the request the page-fetch effect
issues. `counted` is true exactly when no page count is currently
known (`pageCount === 0`). -/
def buildListRequest (s : ListState) : ListRequest :=
  { page_size := s.pageSize, page := s.pageIndex, keyword := s.keyword,
    orders := ordersString s.sorting, counted := s.pageCount == 0 }

/-- Events of one `DataTable` instance. `gotoPage` over-approximates
the pagination controls (tanstack `previousPage` / `nextPage` /
`onPaginationChange`), and `setSorting` the `onSortingChange`
callback: any value may arrive, which only weakens the proved
invariants. -/
inductive ListEvent where
  /-- The page-fetch effect fires (`part_013` lines 271–295). -/
  | trigger
  /-- The outstanding fetch resolves with `r` (lines 296–308). -/
  | complete (r : ListResult)
  /-- The outstanding fetch rejects (lines 300–308). -/
  | completeErr
  /-- The page-size input changes, carrying `Number(e.target.value)`
  (lines 458–468; a number input yields a decimal literal or `""`,
  and `Number("") = 0`, so the parsed value is never NaN). -/
  | changePageSize (q : ℚ)
  /-- `submitSearch` (lines 311–317). -/
  | search (kw : String)
  /-- The description effect resolved and set `pageIndex` to 0
  (lines 256–259). -/
  | descReady
  /-- Entity/sort change: `reset()` (lines 218–230) with the stored
  page size found in localStorage at that moment. -/
  | reset (stored : Option String)
  /-- Pagination control sets a page index. -/
  | gotoPage (i : ℤ)
  /-- `onSortingChange` replaces the sorting state. -/
  | setSorting (sorting : List SortEntry)

/-- One transition of the `DataTable` state. -/
def listStep (s : ListState) : ListEvent → ListState
  | .trigger =>
      if s.pageIndex < 0 then s
      else if s.loading then s
      else { s with loading := true, inFlight := s.inFlight + 1,
                    pending := some (buildListRequest s) }
  | .complete r =>
      if s.inFlight = 0 then s
      else { s with items := r.items,
                    pageCount := if 0 ≤ r.page_count then r.page_count else s.pageCount,
                    loading := false, pending := none, inFlight := s.inFlight - 1 }
  | .completeErr =>
      if s.inFlight = 0 then s
      else { s with loading := false, pending := none, inFlight := s.inFlight - 1 }
  | .changePageSize q =>
      if q ≤ 0 then s else { s with pageSize := q }
  | .search kw => { s with pageIndex := 0, keyword := kw }
  | .descReady => { s with pageIndex := 0 }
  | .reset stored =>
      { s with keyword := "", pageCount := 0, items := [],
               pageIndex := -1, pageSize := getPageSize stored }
  | .gotoPage i => { s with pageIndex := i }
  | .setSorting l => { s with sorting := l }

/-- `DataTable` state at mount (`part_013` lines 176–193): not
loading, sentinel page index, stored page size, no known page count. -/
def initListState (stored : Option String) : ListState :=
  { loading := false, inFlight := 0, pending := none, pageIndex := -1,
    pageSize := getPageSize stored, pageCount := 0, keyword := "",
    sorting := [], items := [] }

/-- Run a `DataTable` instance over a sequence of events. -/
def runList (s₀ : ListState) (evs : List ListEvent) : ListState :=
  evs.foldl listStep s₀

/-- The list engine's serialization invariant: the in-flight count
mirrors the `loading` flag, and a pending request exists exactly while
loading. -/
def ListInv (s : ListState) : Prop :=
  s.inFlight = (if s.loading then 1 else 0) ∧
    (s.pending.isSome ↔ s.loading = true)


/-! ## Description data model, form items, validation, permissions -/

/-- `state/entity.ts` lines 10–14, `EntityOption`. -/
structure EntityOption where
  label : String
  str_value : String
  num_value : ℚ
deriving DecidableEq, Repr

/-- `state/entity.ts` lines 16–25, `EntityItem`. -/
structure EntityItem where
  name : String
  label : String
  category : String
  readonly : Bool
  auto_created : Bool
  width : ℚ
  options : List EntityOption
  span : ℚ
deriving DecidableEq, Repr

/-- `state/entity.ts` lines 26–30, `EntityDescription`. -/
structure EntityDescription where
  items : List EntityItem
  support_orders : List String
  modify_roles : List String
deriving DecidableEq, Repr

/-- `entity-form.tsx` line 48. -/
def ignoreFields : List String := ["id", "created_at", "updated_at"]

/-- `entity-form.tsx` lines 190–192: the items actually rendered as
form fields — the ignored bookkeeping fields are dropped in both
modes, and in create mode every `auto_created` item is dropped too. -/
def formItems (items : List EntityItem) (created : Bool) : List EntityItem :=
  (items.filter (fun item => !ignoreFields.contains item.name)).filter
    (fun item => !(created && item.auto_created))

/-- `entity-form.tsx` lines 71–94: the zod value-shape validator
derived per category. `number` and `status` require a number, `texts`
an array of strings, `file` is `z.string().min(0)` — a string with no
upper length bound — and every other category is
`z.string().min(0).max(50)`. -/
def validateField (category : String) (v : JsValue) : Bool :=
  if category == "number" then
    match v with | .num _ => true | _ => false
  else if category == "status" then
    match v with | .num _ => true | _ => false
  else if category == "texts" then
    match v with | .strs _ => true | _ => false
  else if category == "file" then
    match v with | .str _ => true | _ => false
  else
    match v with | .str s => decide (s.length ≤ 50) | _ => false

/-- Modelled from the spec: "number/status ⇒ numeric; texts ⇒ array of
strings; everything else ⇒ bounded-length string, default 0–50" — the
claimed validator, to be compared with the source-derived
`validateField`. -/
def claimedValidateField (category : String) (v : JsValue) : Bool :=
  if category == "number" || category == "status" then
    match v with | .num _ => true | _ => false
  else if category == "texts" then
    match v with | .strs _ => true | _ => false
  else
    match v with | .str s => decide (s.length ≤ 50) | _ => false

/-- The per-field validation errors of a submission attempt: the names
of the schema items whose bound value violates the derived shape
(zodResolver attaches each issue to its field path, never globally). -/
def fieldErrors (items : List EntityItem) (values : Record) : List String :=
  (items.filter (fun item => !validateField item.category (values.getJs item.name))).map (·.name)

/-- `form.handleSubmit(onSubmit)`: react-hook-form runs the resolver
first and invokes `onSubmit` only when no field has a validation
error; otherwise nothing is submitted and the errors stay attached to
their fields. -/
def handleSubmit (items : List EntityItem) (s : EditorState) (values : Record)
    (ok : Bool) : EditorState × Option NetworkCall × Option String :=
  if (fieldErrors items values).isEmpty then onSubmit s values ok else (s, none, none)

/-- `part_013` lines 45–50: the permission evaluator — a fold over
`modify_roles` that switches to `true` when the actor holds one of
them. -/
def canModify (modifyRoles roles : List String) : Bool :=
  modifyRoles.foldl (fun acc item => if roles.contains item then true else acc) false

/-- `part_013` lines 94–111: the operations cell renders the "查看"
(view) link when `canModify` is false, the "编辑" (edit) action when it
is true. -/
def opCellLabel (cm : Bool) : String :=
  if cm then "编辑" else "查看"

/-- `part_013` lines 374–384: the "新增" (create) action is rendered
exactly when the entity is not `"users"` — its visibility never
consults `canModify`. -/
def createButtonShown (entity : String) : Bool :=
  !(entity == "users")


/-- A 51-character string: the shortest content that a 0–50 length
bound rejects (category `file` stores base64 data URLs, which are far
longer than this). -/
def longStr : String := String.mk (List.replicate 51 'a')

/-! ## Library lemmas about the embedded definitions -/

namespace Record

theorem getJs_cons (k' : String) (v : JsValue) (rest : Record) (k : String) :
    Record.getJs ((k', v) :: rest) k = if k' = k then v else rest.getJs k := rfl

theorem keys_cons (k : String) (v : JsValue) (rest : Record) :
    Record.keys ((k, v) :: rest) = k :: rest.keys := rfl

/-- In a duplicate-free record, lookup of a present key returns the
stored value. -/
theorem getJs_eq_of_mem {r : Record} (hwf : r.WFKeys) {k : String} {v : JsValue}
    (hmem : (k, v) ∈ r) : r.getJs k = v := by
  induction r with
  | nil => cases hmem
  | cons kv rest ih =>
      obtain ⟨k', v'⟩ := kv
      have hwf' : Record.WFKeys rest ∧ k' ∉ Record.keys rest := by
        have h := hwf
        unfold Record.WFKeys at h ⊢
        rw [keys_cons] at h
        exact ⟨(List.nodup_cons.mp h).2, (List.nodup_cons.mp h).1⟩
      rcases List.mem_cons.mp hmem with hmem | hmem
      · rw [← hmem]
        simp [getJs_cons]
      · rw [getJs_cons]
        by_cases hk : k' = k
        · subst hk
          exact absurd (List.mem_map.mpr ⟨(k', v), hmem, rfl⟩) hwf'.2
        · simpa [hk] using ih hwf'.1 hmem

/-- Lookup of an absent key yields `undefined`. -/
theorem getJs_eq_undef_of_not_mem {r : Record} {k : String}
    (h : k ∉ r.keys) : r.getJs k = .undef := by
  induction r with
  | nil => rfl
  | cons kv rest ih =>
      obtain ⟨k', v'⟩ := kv
      rw [keys_cons] at h
      rw [getJs_cons]
      have hk : k' ≠ k := fun he => h (he ▸ List.mem_cons_self _ _)
      simpa [hk] using ih (fun hm => h (List.mem_cons_of_mem _ hm))

theorem getJs_setJs_self (r : Record) (k : String) (v : JsValue) :
    (r.setJs k v).getJs k = v := by
  induction r with
  | nil => simp [Record.setJs, getJs_cons]
  | cons kv rest ih =>
      obtain ⟨k', v'⟩ := kv
      by_cases hk : k' = k <;> simp [Record.setJs, hk, getJs_cons, ih]

theorem getJs_setJs_of_ne (r : Record) {k k' : String} (v : JsValue)
    (h : k ≠ k') : (r.setJs k v).getJs k' = r.getJs k' := by
  induction r with
  | nil => simp [Record.setJs, getJs_cons, h]
  | cons kv rest ih =>
      obtain ⟨k₀, v₀⟩ := kv
      by_cases hk : k₀ = k
      · subst hk
        simp [Record.setJs, getJs_cons, h]
      · simp only [Record.setJs, hk, if_false, getJs_cons]
        by_cases hk' : k₀ = k' <;> simp [hk', ih]

end Record

/-- Entries of the diff are entries of `values` whose value differs from
the baseline's. -/
theorem mem_computeDiff {values entityData : Record} {kv : String × JsValue} :
    kv ∈ computeDiff values entityData ↔
      kv ∈ values ∧ kv.2 ≠ entityData.getJs kv.1 := by
  unfold computeDiff
  constructor
  · intro h
    have h' := List.of_mem_filter h
    exact ⟨List.mem_of_mem_filter h, by simpa using h'⟩
  · intro ⟨h1, h2⟩
    exact List.mem_filter.mpr ⟨h1, by simpa using h2⟩

/-- The diff of a well-formed record against itself is empty: every
entry's value agrees with first-match lookup. -/
theorem computeDiff_self {r : Record} (h : r.WFKeys) : computeDiff r r = [] := by
  unfold computeDiff
  rw [List.filter_eq_nil_iff]
  intro kv hmem
  have : r.getJs kv.1 = kv.2 := Record.getJs_eq_of_mem h (by exact hmem)
  simp [this]
theorem editorInv_init (id : String) (d : Record) :
    EditorInv (initEditorState id d) := by
  constructor <;> simp [initEditorState]

theorem editorInv_step {s : EditorState} (h : EditorInv s) (e : EditorEvent) :
    EditorInv (editorStep s e) := by
  obtain ⟨h1, h2⟩ := h
  cases e with
  | submit values =>
      by_cases hp : s.processing
      · simpa [editorStep, submitStart, hp] using ⟨h1, h2⟩
      · simp only [editorStep, submitStart, hp, if_false]
        by_cases hd : (computeDiff values s.entityData).isEmpty
        · simpa [hd] using ⟨h1, h2⟩
        · by_cases hc : isCreated s.id <;>
            simp [hd, hc, EditorInv, h1, hp]
  | complete ok =>
      by_cases hz : s.inFlight = 0
      · simpa [editorStep, hz] using ⟨h1, h2⟩
      · have hp : s.processing = true := by
          by_contra hp'
          simp only [Bool.not_eq_true] at hp'
          rw [hp'] at h1
          simp at h1
          exact hz h1
        have hpend : s.pending.isSome := h2.mpr hp
        simp only [editorStep, hz, if_false]
        match hm : s.pending with
        | none => rw [hm] at hpend; simp at hpend
        | some (NetworkCall.create p) =>
            cases ok <;> simp [submitFinish, hm, EditorInv, h1, hp]
        | some (NetworkCall.patch i d) =>
            cases ok <;> simp [submitFinish, hm, EditorInv, h1, hp]

theorem editorInv_run (id : String) (d : Record) (evs : List EditorEvent) :
    EditorInv (runEditor (initEditorState id d) evs) := by
  have h : ∀ (s : EditorState), EditorInv s → EditorInv (runEditor s evs) := by
    induction evs with
    | nil => intro s hs; exact hs
    | cons e rest ih =>
        intro s hs
        exact ih _ (editorInv_step hs e)
  exact h _ (editorInv_init id d)
theorem intercalate_go_eq (s : String) (l : List String) :
    ∀ acc : String, String.intercalate.go acc s l = acc ++ sepJoin s l := by
  induction l with
  | nil => intro acc; rw [String.intercalate.go, sepJoin, String.append_empty]
  | cons a as ih =>
      intro acc
      rw [String.intercalate.go, ih, sepJoin,
        String.append_assoc, String.append_assoc, String.append_assoc]

theorem intercalate_cons (s a : String) (as : List String) :
    String.intercalate s (a :: as) = a ++ sepJoin s as := by
  rw [String.intercalate, intercalate_go_eq]

theorem ordersSpec_cons (e : SortEntry) (rest : List SortEntry) :
    ordersSpec (e :: rest) = sortEntryStr e ++ sepJoin "," (rest.map sortEntryStr) := by
  induction rest generalizing e with
  | nil => rw [ordersSpec, List.map_nil, sepJoin, String.append_empty]
  | cons f rs ih =>
      rw [ordersSpec, ih f, List.map_cons, sepJoin,
        String.append_assoc, String.append_assoc]

/-- The source's `map`/`join(",")` pipeline agrees with the spec's
recursive description of the orders string. -/
theorem ordersString_eq_ordersSpec (l : List SortEntry) :
    ordersString l = ordersSpec l := by
  cases l with
  | nil => rfl
  | cons e rest =>
      rw [ordersString, List.map_cons, intercalate_cons, ordersSpec_cons]
      rfl
/-- The loaded page size is always strictly positive. -/
theorem getPageSize_pos (stored : Option String) : 0 < getPageSize stored := by
  unfold getPageSize
  cases hn : (match stored with
    | none => some (0 : ℚ)
    | some s => jsNumber s) with
  | none => norm_num
  | some q =>
      by_cases hq : q ≤ 0
      · simp [hq]
      · simp only [hq, if_false]
        exact lt_of_not_ge hq
theorem listInv_init (stored : Option String) : ListInv (initListState stored) := by
  constructor <;> simp [initListState]

theorem listInv_step {s : ListState} (h : ListInv s) (e : ListEvent) :
    ListInv (listStep s e) := by
  obtain ⟨h1, h2⟩ := h
  cases e with
  | trigger =>
      by_cases hi : s.pageIndex < 0
      · simpa [listStep, hi] using ⟨h1, h2⟩
      · by_cases hl : s.loading
        · simpa [listStep, hi, hl] using ⟨h1, h2⟩
        · simp [listStep, hi, hl, ListInv, h1]
  | complete r =>
      by_cases hz : s.inFlight = 0
      · simpa [listStep, hz] using ⟨h1, h2⟩
      · have hl : s.loading = true := by
          by_contra hl'
          simp only [Bool.not_eq_true] at hl'
          rw [hl'] at h1
          simp at h1
          exact hz h1
        simp [listStep, hz, ListInv, h1, hl]
  | completeErr =>
      by_cases hz : s.inFlight = 0
      · simpa [listStep, hz] using ⟨h1, h2⟩
      · have hl : s.loading = true := by
          by_contra hl'
          simp only [Bool.not_eq_true] at hl'
          rw [hl'] at h1
          simp at h1
          exact hz h1
        simp [listStep, hz, ListInv, h1, hl]
  | changePageSize q =>
      by_cases hq : q ≤ 0 <;> simpa [listStep, hq] using ⟨h1, h2⟩
  | search kw => simpa [listStep] using ⟨h1, h2⟩
  | descReady => simpa [listStep] using ⟨h1, h2⟩
  | reset stored => simpa [listStep] using ⟨h1, h2⟩
  | gotoPage i => simpa [listStep] using ⟨h1, h2⟩
  | setSorting l => simpa [listStep] using ⟨h1, h2⟩

theorem listInv_run (stored : Option String) (evs : List ListEvent) :
    ListInv (runList (initListState stored) evs) := by
  have h : ∀ (s : ListState), ListInv s → ListInv (runList s evs) := by
    induction evs with
    | nil => intro s hs; exact hs
    | cons e rest ih =>
        intro s hs
        exact ih _ (listInv_step hs e)
  exact h _ (listInv_init stored)

/-- The page size of a reachable `DataTable` state is strictly
positive. -/
theorem pageSize_pos_step {s : ListState} (h : 0 < s.pageSize) (e : ListEvent) :
    0 < (listStep s e).pageSize := by
  cases e with
  | trigger =>
      by_cases hi : s.pageIndex < 0
      · simpa [listStep, hi]
      · by_cases hl : s.loading <;> simp [listStep, hi, hl, h]
  | complete r =>
      by_cases hz : s.inFlight = 0 <;> simp [listStep, hz, h]
  | completeErr =>
      by_cases hz : s.inFlight = 0 <;> simp [listStep, hz, h]
  | changePageSize q =>
      by_cases hq : q ≤ 0
      · simpa [listStep, hq]
      · simpa [listStep, hq] using lt_of_not_ge hq
  | search kw => simpa [listStep]
  | descReady => simpa [listStep]
  | reset stored => simpa [listStep] using getPageSize_pos stored
  | gotoPage i => simpa [listStep]
  | setSorting l => simpa [listStep]

theorem pageSize_pos_run (stored : Option String) (evs : List ListEvent) :
    0 < (runList (initListState stored) evs).pageSize := by
  have h : ∀ (s : ListState), 0 < s.pageSize → 0 < (runList s evs).pageSize := by
    induction evs with
    | nil => intro s hs; exact hs
    | cons e rest ih =>
        intro s hs
        exact ih _ (pageSize_pos_step hs e)
  exact h _ (by simpa [initListState] using getPageSize_pos stored)
theorem canModify_foldl (roles : List String) (l : List String) (acc : Bool) :
    l.foldl (fun acc item => if roles.contains item then true else acc) acc =
      (acc || l.any (fun x => roles.contains x)) := by
  induction l generalizing acc with
  | nil => simp
  | cons x xs ih =>
      rw [List.foldl_cons, ih]
      cases acc <;> simp [Bool.or_comm]

/-- The fold computes exactly nonemptiness of the intersection of the
description's modify roles with the actor's roles. -/
theorem canModify_iff (modifyRoles roles : List String) :
    canModify modifyRoles roles = true ↔ ∃ r ∈ modifyRoles, r ∈ roles := by
  unfold canModify
  rw [canModify_foldl]
  simp [List.any_eq_true]

/-! ## Further lemmas: diff keys, fold-back, submit shapes -/

theorem computeDiff_wfKeys {values : Record} (h : values.WFKeys) (base : Record) :
    (computeDiff values base).WFKeys := by
  unfold Record.WFKeys Record.keys at h ⊢
  exact h.sublist ((List.filter_sublist values).map _)

theorem WFKeys_unique {r : Record} (h : r.WFKeys) {k : String} {v w : JsValue}
    (hv : (k, v) ∈ r) (hw : (k, w) ∈ r) : v = w := by
  have h1 := Record.getJs_eq_of_mem h hv
  have h2 := Record.getJs_eq_of_mem h hw
  rw [← h1, ← h2]

theorem getJs_foldBack_not_mem {d : Record} {k : String} (b : Record)
    (h : k ∉ Record.keys d) : (foldBack b d).getJs k = b.getJs k := by
  induction d generalizing b with
  | nil => rfl
  | cons kv rest ih =>
      obtain ⟨k₀, v₀⟩ := kv
      rw [Record.keys_cons] at h
      have hk : k₀ ≠ k := fun he => h (he ▸ List.mem_cons_self _ _)
      have hrest : k ∉ Record.keys rest := fun hm => h (List.mem_cons_of_mem _ hm)
      show (foldBack (b.setJs k₀ v₀) rest).getJs k = b.getJs k
      rw [ih _ hrest, Record.getJs_setJs_of_ne _ _ hk]

theorem getJs_foldBack_mem {d : Record} {k : String} {v : JsValue} (b : Record)
    (hwf : d.WFKeys) (hmem : (k, v) ∈ d) : (foldBack b d).getJs k = v := by
  induction d generalizing b with
  | nil => cases hmem
  | cons kv rest ih =>
      obtain ⟨k₀, v₀⟩ := kv
      have hwf' : Record.WFKeys rest ∧ k₀ ∉ Record.keys rest := by
        have h := hwf
        unfold Record.WFKeys at h ⊢
        rw [Record.keys_cons] at h
        exact ⟨(List.nodup_cons.mp h).2, (List.nodup_cons.mp h).1⟩
      rcases List.mem_cons.mp hmem with he | hrest
      · obtain ⟨he1, he2⟩ := Prod.mk.injEq .. ▸ he
        subst he1; subst he2
        show (foldBack (b.setJs k v) rest).getJs k = v
        rw [getJs_foldBack_not_mem _ hwf'.2, Record.getJs_setJs_self]
      · exact ih _ hwf'.1 hrest

/-- Characterization: the diff is empty exactly when every bound entry
agrees with the baseline's value at its key. -/
theorem computeDiff_eq_nil_iff {V B : Record} :
    computeDiff V B = [] ↔ ∀ kv ∈ V, B.getJs kv.1 = kv.2 := by
  unfold computeDiff
  rw [List.filter_eq_nil_iff]
  constructor
  · intro h kv hkv
    have := h kv hkv
    simp only [decide_eq_true_eq] at this
    exact (not_not.mp this).symm
  · intro h kv hkv
    simp [h kv hkv]

theorem mem_keys_computeDiff {values base : Record} {k : String}
    (hk : k ∈ Record.keys (computeDiff values base)) :
    ∃ w, (k, w) ∈ computeDiff values base := by
  obtain ⟨kv, hmem, hfst⟩ := List.mem_map.mp hk
  subst hfst
  exact ⟨kv.2, Prod.mk.eta ▸ hmem⟩

/-- Resubmitting the same values against the folded-back baseline
yields an empty diff. -/
theorem computeDiff_foldBack {values base : Record} (hwf : values.WFKeys) :
    computeDiff values (foldBack base (computeDiff values base)) = [] := by
  apply computeDiff_eq_nil_iff.mpr
  intro kv hkv
  by_cases hd : kv ∈ computeDiff values base
  · exact getJs_foldBack_mem _ (computeDiff_wfKeys hwf base) (by rw [Prod.mk.eta]; exact hd)
  · have hkey : kv.1 ∉ Record.keys (computeDiff values base) := by
      intro hk
      obtain ⟨w, hw⟩ := mem_keys_computeDiff hk
      have hvals : (kv.1, w) ∈ values := (mem_computeDiff.mp hw).1
      have hkv2 : (kv.1, kv.2) ∈ values := by rw [Prod.mk.eta]; exact hkv
      have hweq : w = kv.2 := WFKeys_unique hwf hvals hkv2
      subst hweq
      exact hd (by rw [show kv = (kv.1, kv.2) from Prod.mk.eta.symm]; exact hw)
    rw [getJs_foldBack_not_mem _ hkey]
    by_contra hne
    exact hd (mem_computeDiff.mpr ⟨hkv, fun he => hne he.symm⟩)

theorem isEmpty_false_of_ne_nil {l : Record} (h : l ≠ []) : l.isEmpty = false := by
  cases hl : l with
  | nil => exact absurd hl h
  | cons a t => rfl

/-- Shape of a whole successful update submission: guard passed,
non-empty diff, update mode — the PATCH carries exactly the diff, the
diff is folded back, `processing` ends false. -/
theorem onSubmit_update_shape (s : EditorState) (values : Record)
    (hmode : isCreated s.id = false) (hp : s.processing = false)
    (hd : computeDiff values s.entityData ≠ []) :
    onSubmit s values true =
      ({ s with entityData := foldBack s.entityData (computeDiff values s.entityData),
                tips := "已成功更新数据，字段为：" ++
                  String.intercalate "," (Record.keys (computeDiff values s.entityData)) ++ "。",
                processing := false, pending := none },
        some (NetworkCall.patch s.id (computeDiff values s.entityData)), none) := by
  have hne := isEmpty_false_of_ne_nil hd
  unfold onSubmit submitStart submitFinish
  simp [hp, hne, hmode]

/-- In create mode a submission that proceeds issues the creation
request with the `createEntity` parameters built from the full bound
values. -/
theorem onSubmit_create_call (s : EditorState) (values : Record) (ok : Bool)
    (hmode : isCreated s.id = true) (hp : s.processing = false)
    (hd : computeDiff values s.entityData ≠ []) :
    (onSubmit s values ok).2.1 = some (NetworkCall.create (createEntityParams values)) := by
  have hne := isEmpty_false_of_ne_nil hd
  unfold onSubmit submitStart
  simp [hp, hne, hmode]

/-- One more click on the single sorted column flips its direction —
it never removes the entry. -/
theorem headerClick_single (b : Bool) :
    headerClick [⟨"name", b⟩] "name" = [⟨"name", !b⟩] := by
  cases b <;> decide

/-- Click number `n ≥ 1` leaves exactly one entry for the column,
descending exactly when `n` is even. -/
theorem clickIter_pattern : ∀ n : ℕ, 1 ≤ n →
    clickIter "name" n = [⟨"name", decide (n % 2 = 0)⟩] := by
  intro n hn
  induction n with
  | zero => omega
  | succ m ih =>
      by_cases hm : 1 ≤ m
      · have hstep : clickIter "name" (m + 1) =
            headerClick (clickIter "name" m) "name" :=
          Function.iterate_succ_apply' _ m []
        rw [hstep, ih hm, headerClick_single]
        by_cases h : m % 2 = 0
        · have h2 : ¬ ((m + 1) % 2 = 0) := by omega
          simp [h, h2]
        · have h2 : (m + 1) % 2 = 0 := by omega
          simp [h, h2]
      · have hm0 : m = 0 := by omega
        subst hm0
        decide

/-! ## The claims -/

/-- C1: in update mode with no submission in flight, submit computes
`diff = { k : V[k] ≠ R[k] }` over the bound keys with structural (deep)
inequality; `diff(R, R) = ∅` for every well-formed record; and an empty
diff aborts with the "nothing changed" notice, issuing zero network
calls and leaving the state untouched. -/
theorem C1_update_diff_and_empty_abort (s : EditorState) (V R : Record)
    (_hmode : isCreated s.id = false) (hp : s.processing = false)
    (hwf : R.WFKeys) :
    (∀ kv : String × JsValue,
        kv ∈ computeDiff V s.entityData ↔ kv ∈ V ∧ kv.2 ≠ s.entityData.getJs kv.1)
    ∧ computeDiff R R = []
    ∧ (computeDiff V s.entityData = [] →
        onSubmit s V true = (s, none, some nothingChangedNotice)) := by
  refine ⟨fun kv => mem_computeDiff, computeDiff_self hwf, fun hd => ?_⟩
  have hne : (computeDiff V s.entityData).isEmpty = true := by rw [hd]; rfl
  unfold onSubmit submitStart
  simp [hp, hne]

/-- C1 witness: the theorem at a concrete baseline and identical bound
values. -/
theorem C1_update_diff_witness :
    (∀ kv : String × JsValue,
        kv ∈ computeDiff [("name", JsValue.str "a")]
            (initEditorState "1" [("name", JsValue.str "a")]).entityData ↔
          kv ∈ ([("name", JsValue.str "a")] : Record) ∧
            kv.2 ≠ Record.getJs [("name", JsValue.str "a")] kv.1)
    ∧ computeDiff [("name", JsValue.str "a")] [("name", JsValue.str "a")] = []
    ∧ (computeDiff [("name", JsValue.str "a")]
          (initEditorState "1" [("name", JsValue.str "a")]).entityData = [] →
        onSubmit (initEditorState "1" [("name", JsValue.str "a")])
            [("name", JsValue.str "a")] true =
          (initEditorState "1" [("name", JsValue.str "a")], none,
            some nothingChangedNotice)) :=
  C1_update_diff_and_empty_abort (initEditorState "1" [("name", JsValue.str "a")])
    [("name", JsValue.str "a")] [("name", JsValue.str "a")]
    (by decide) (by decide) (by unfold Record.WFKeys Record.keys; decide)

/-- C2 counterexample: a fetch issued with `counted = false` (page
count 5 already established) whose response body carries
`page_count = 7` overwrites the engine's page count to 7 — the claim's
"unchanged regardless of the response body" fails. -/
theorem C2_sticky_counterexample :
    ((runList (initListState none)
        [ListEvent.descReady, ListEvent.trigger, ListEvent.complete ⟨[], 5⟩,
         ListEvent.trigger]).pageCount = 5)
    ∧ ((runList (initListState none)
        [ListEvent.descReady, ListEvent.trigger, ListEvent.complete ⟨[], 5⟩,
         ListEvent.trigger]).pending.map (fun r => r.counted) = some false)
    ∧ ((runList (initListState none)
        [ListEvent.descReady, ListEvent.trigger, ListEvent.complete ⟨[], 5⟩,
         ListEvent.trigger, ListEvent.complete ⟨[], 7⟩]).pageCount = 7) := by
  decide

/-- C2 (amended): completing a page fetch preserves the engine's page
count exactly when the response's `page_count` is negative — the
sticky rule guards on the response value, not on the request's
`counted` flag. -/
theorem C2_sticky_on_negative (s : ListState) (r : ListResult)
    (hneg : r.page_count < 0) :
    (listStep s (ListEvent.complete r)).pageCount = s.pageCount := by
  have h : ¬ (0 ≤ r.page_count) := not_le.mpr hneg
  by_cases hz : s.inFlight = 0 <;> simp [listStep, hz, h]

/-- C2 witness: the amended theorem at a concrete state and a `-1`
response. -/
theorem C2_sticky_witness :
    (listStep (initListState none) (ListEvent.complete ⟨[], -1⟩)).pageCount =
      (initListState none).pageCount :=
  C2_sticky_on_negative (initListState none) ⟨[], -1⟩ (by decide)

/-- C3 counterexample: `modify_roles = ["admin"]`, actor roles
`["user"]` gives `canModify = false`, yet for entity `"files"` the
create action is still rendered — it is not hidden. -/
theorem C3_create_counterexample :
    canModify ["admin"] ["user"] = false ∧ createButtonShown "files" = true := by
  decide

/-- C3 (amended): `canModify` is exactly nonemptiness of the
intersection of the description's `modify_roles` with the actor's
roles; when it is false the operations cell renders the view label;
the create action is hidden exactly for the `"users"` entity,
independently of `canModify`. -/
theorem C3_permission_gating (mr roles : List String) (entity : String) :
    (canModify mr roles = true ↔ ∃ r ∈ mr, r ∈ roles)
    ∧ (canModify mr roles = false → opCellLabel (canModify mr roles) = "查看")
    ∧ (createButtonShown entity = true ↔ entity ≠ "users") := by
  refine ⟨canModify_iff mr roles, fun h => ?_, ?_⟩
  · rw [h]; rfl
  · simp [createButtonShown]

/-- C4: the orders string of every page fetch renders each sort entry
as its field name with a leading `-` exactly when descending, joined
by commas in entry order; `[a asc, b desc]` gives `"a,-b"` and the
empty sorting gives `""`. -/
theorem C4_orders_builder (s : ListState) :
    (buildListRequest s).orders = ordersSpec s.sorting
    ∧ ordersString [⟨"a", false⟩, ⟨"b", true⟩] = "a,-b"
    ∧ ordersString [] = "" :=
  ⟨ordersString_eq_ordersSpec s.sorting, by decide, rfl⟩

/-- C5 counterexample: three clicks on the header of an unsorted
sortable column yield the ascending entry again (`orders = "name"`),
not the unsorted state (`orders = ""`). -/
theorem C5_three_clicks_counterexample :
    clickIter "name" 3 = [⟨"name", false⟩]
    ∧ ordersString (clickIter "name" 3) = "name"
    ∧ ¬ ordersString (clickIter "name" 3) = "" := by
  decide

/-- C5 (amended): header clicks cycle unsorted → ascending →
descending → ascending → …: the first click sorts ascending, every
later click flips the direction, and no number of clicks returns the
column to unsorted (the click handler always passes an explicit
direction, so the sort entry is never removed). -/
theorem C5_click_cycle :
    clickIter "name" 1 = [⟨"name", false⟩]
    ∧ clickIter "name" 2 = [⟨"name", true⟩]
    ∧ clickIter "name" 3 = [⟨"name", false⟩]
    ∧ (∀ n : ℕ, 1 ≤ n → ordersString (clickIter "name" n) ≠ "") := by
  refine ⟨by decide, by decide, by decide, fun n hn => ?_⟩
  rw [clickIter_pattern n hn]
  cases hdec : decide (n % 2 = 0) <;> decide

/-- C6: identifier `"0"` enters create mode; in create mode every
`auto_created` field is absent from the rendered form; a submission
that proceeds issues the creation request built from the full bound
values — every non-id, non-nil, non-empty bound value appears in the
payload — and never a partial update. -/
theorem C6_create_mode (s : EditorState) (values : Record)
    (items : List EntityItem) (item : EntityItem) (ok : Bool)
    (hid : s.id = "0") (hp : s.processing = false)
    (hd : computeDiff values s.entityData ≠ []) :
    isCreated "0" = true
    ∧ (item.auto_created = true → item ∉ formItems items true)
    ∧ (onSubmit s values ok).2.1 = some (NetworkCall.create (createEntityParams values))
    ∧ (∀ i p, (onSubmit s values ok).2.1 ≠ some (NetworkCall.patch i p))
    ∧ (∀ kv ∈ values, kv.1 ≠ "id" → kv.2.isNil = false →
        (kv.2.isString = true → kv.2.isTruthyStr = true) →
        kv ∈ createEntityParams values) := by
  have hmode : isCreated s.id = true := by rw [hid]; rfl
  have hcall := onSubmit_create_call s values ok hmode hp hd
  refine ⟨rfl, fun ha hmem => ?_, hcall, fun i p hcontra => ?_,
    fun kv hkv h1 h2 h3 => ?_⟩
  · have hf := List.of_mem_filter hmem
    simp [ha] at hf
  · rw [hcall] at hcontra
    simp at hcontra
  · refine List.mem_filter.mpr ⟨hkv, ?_⟩
    have hid1 : (kv.1 == "id") = false := beq_eq_false_iff_ne.mpr h1
    by_cases hs : kv.2.isString = true
    · simp [hid1, h2, hs, h3 hs]
    · simp only [Bool.not_eq_true] at hs
      simp [hid1, h2, hs]

/-- C6 witness: the theorem at a concrete create-mode editor, an
auto-created item, and bound values holding one new field. -/
theorem C6_create_witness :
    isCreated "0" = true
    ∧ ((⟨"created_by", "creator", "text", true, true, 0, [], 0⟩ : EntityItem).auto_created = true →
        (⟨"created_by", "creator", "text", true, true, 0, [], 0⟩ : EntityItem) ∉
          formItems [⟨"created_by", "creator", "text", true, true, 0, [], 0⟩] true)
    ∧ (onSubmit (initEditorState "0" [("id", JsValue.num 0)])
          [("id", JsValue.num 0), ("name", JsValue.str "x")] true).2.1 =
        some (NetworkCall.create (createEntityParams
          [("id", JsValue.num 0), ("name", JsValue.str "x")]))
    ∧ (∀ i p, (onSubmit (initEditorState "0" [("id", JsValue.num 0)])
          [("id", JsValue.num 0), ("name", JsValue.str "x")] true).2.1 ≠
        some (NetworkCall.patch i p))
    ∧ (∀ kv ∈ ([("id", JsValue.num 0), ("name", JsValue.str "x")] : Record),
        kv.1 ≠ "id" → kv.2.isNil = false →
        (kv.2.isString = true → kv.2.isTruthyStr = true) →
        kv ∈ createEntityParams [("id", JsValue.num 0), ("name", JsValue.str "x")]) :=
  C6_create_mode (initEditorState "0" [("id", JsValue.num 0)])
    [("id", JsValue.num 0), ("name", JsValue.str "x")]
    [⟨"created_by", "creator", "text", true, true, 0, [], 0⟩]
    ⟨"created_by", "creator", "text", true, true, 0, [], 0⟩ true
    rfl rfl (by decide)

/-- C7: after a successful update submission of a non-empty diff the
accepted values are folded back into the baseline, so an immediate
resubmission with unchanged bound values computes an empty diff and
aborts with the "nothing changed" notice — zero network calls. -/
theorem C7_fold_back_resubmit (s : EditorState) (values : Record)
    (hmode : isCreated s.id = false) (hp : s.processing = false)
    (hwf : values.WFKeys) (hd : computeDiff values s.entityData ≠ []) :
    computeDiff values ((onSubmit s values true).1).entityData = []
    ∧ onSubmit ((onSubmit s values true).1) values true =
        ((onSubmit s values true).1, none, some nothingChangedNotice) := by
  have hshape := onSubmit_update_shape s values hmode hp hd
  set s' := (onSubmit s values true).1 with hs'
  have hed : s'.entityData = foldBack s.entityData (computeDiff values s.entityData) := by
    rw [hs', hshape]
  have hpr : s'.processing = false := by
    rw [hs', hshape]
  have hempty : computeDiff values s'.entityData = [] := by
    rw [hed]; exact computeDiff_foldBack hwf
  have hne : (computeDiff values s'.entityData).isEmpty = true := by
    rw [hempty]; rfl
  refine ⟨hempty, ?_⟩
  unfold onSubmit submitStart
  simp [hpr, hne]

/-- C7 witness: the theorem at a concrete baseline `name = "a"` and
bound value `name = "b"`. -/
theorem C7_fold_back_witness :
    computeDiff [("name", JsValue.str "b")]
        ((onSubmit (initEditorState "1" [("name", JsValue.str "a")])
            [("name", JsValue.str "b")] true).1).entityData = []
    ∧ onSubmit ((onSubmit (initEditorState "1" [("name", JsValue.str "a")])
          [("name", JsValue.str "b")] true).1) [("name", JsValue.str "b")] true =
        ((onSubmit (initEditorState "1" [("name", JsValue.str "a")])
            [("name", JsValue.str "b")] true).1, none, some nothingChangedNotice) :=
  C7_fold_back_resubmit (initEditorState "1" [("name", JsValue.str "a")])
    [("name", JsValue.str "b")] (by decide) rfl
    (by unfold Record.WFKeys Record.keys; decide) (by decide)

/-- C8 counterexample: category `file` derives `z.string().min(0)` with
no upper bound — a 51-character string passes the actual validator but
violates the claimed 0–50 bound. -/
theorem C8_file_unbounded_counterexample :
    validateField "file" (JsValue.str longStr) = true
    ∧ claimedValidateField "file" (JsValue.str longStr) = false
    ∧ longStr.length = 51 := by
  decide

/-- C8 (amended): the derived value-shape validator is numeric for
`number`/`status`, array of strings for `texts`, an unbounded string
for `file`, and a bounded 0–50 string for every other category; a
violation blocks submission and is reported on the offending field,
not globally. -/
theorem C8_validator_shapes (category : String) (v : JsValue)
    (items : List EntityItem) (s : EditorState) (values : Record) (ok : Bool) :
    (category = "number" ∨ category = "status" →
      (validateField category v = true ↔ ∃ q, v = JsValue.num q))
    ∧ (category = "texts" → (validateField category v = true ↔ ∃ l, v = JsValue.strs l))
    ∧ (category = "file" → (validateField category v = true ↔ ∃ t, v = JsValue.str t))
    ∧ (category ∉ ["number", "status", "texts", "file"] →
      (validateField category v = true ↔ ∃ t, v = JsValue.str t ∧ t.length ≤ 50))
    ∧ (category ≠ "file" → validateField category v = claimedValidateField category v)
    ∧ (fieldErrors items values ≠ [] → handleSubmit items s values ok = (s, none, none))
    ∧ (∀ k, k ∈ fieldErrors items values ↔
        ∃ item ∈ items, item.name = k ∧
          validateField item.category (values.getJs item.name) = false) := by
  refine ⟨?_, ?_, ?_, ?_, ?_, ?_, ?_⟩
  · rintro (h | h) <;> subst h <;> cases v <;> simp [validateField]
  · intro h; subst h; cases v <;> simp [validateField]
  · intro h; subst h; cases v <;> simp [validateField]
  · intro h
    simp only [List.mem_cons, List.not_mem_nil, or_false, not_or] at h
    obtain ⟨h1, h2, h3, h4⟩ := h
    have b1 := beq_eq_false_iff_ne.mpr h1
    have b2 := beq_eq_false_iff_ne.mpr h2
    have b3 := beq_eq_false_iff_ne.mpr h3
    have b4 := beq_eq_false_iff_ne.mpr h4
    cases v <;> simp [validateField, b1, b2, b3, b4]
  · intro hfile
    have b4 := beq_eq_false_iff_ne.mpr hfile
    unfold validateField claimedValidateField
    by_cases b1 : (category == "number") = true
    · simp [b1]
    · by_cases b2 : (category == "status") = true
      · simp [b1, b2]
      · by_cases b3 : (category == "texts") = true
        · simp [b1, b2, b3]
        · simp [b1, b2, b3, b4]
  · intro h
    have hne : (fieldErrors items values).isEmpty = false := by
      cases hfe : fieldErrors items values with
      | nil => exact absurd hfe h
      | cons a t => rfl
    unfold handleSubmit
    simp [hne]
  · intro k
    unfold fieldErrors
    constructor
    · intro hk
      obtain ⟨item, hmem, hname⟩ := List.mem_map.mp hk
      have hf := List.mem_filter.mp hmem
      refine ⟨item, hf.1, hname, ?_⟩
      have hb := hf.2
      simp only [Bool.not_eq_true'] at hb
      exact hb
    · rintro ⟨item, hmem, hname, hbad⟩
      exact List.mem_map.mpr ⟨item, List.mem_filter.mpr ⟨hmem, by simp [hbad]⟩, hname⟩

/-- C9: within one List or Editor instance no two page fetches and no
two submissions are ever in flight — in every reachable state the
in-flight count is at most one, a page-fetch trigger arriving while a
fetch is loading leaves the state unchanged (dropped, not queued), and
a submit attempt while a submission is outstanding is a no-op. -/
theorem C9_serialized_in_flight (stored : Option String) (evsL : List ListEvent)
    (eid : String) (d : Record) (evsE : List EditorEvent)
    (sL : ListState) (sE : EditorState) (v : Record) :
    (runList (initListState stored) evsL).inFlight ≤ 1
    ∧ (runEditor (initEditorState eid d) evsE).inFlight ≤ 1
    ∧ (sL.loading = true → listStep sL ListEvent.trigger = sL)
    ∧ (sE.processing = true → editorStep sE (EditorEvent.submit v) = sE) := by
  refine ⟨?_, ?_, fun hl => ?_, fun hp => ?_⟩
  · have h := (listInv_run stored evsL).1
    rw [h]
    by_cases hb : (runList (initListState stored) evsL).loading <;> simp [hb]
  · have h := (editorInv_run eid d evsE).1
    rw [h]
    by_cases hb : (runEditor (initEditorState eid d) evsE).processing <;> simp [hb]
  · by_cases hi : sL.pageIndex < 0 <;> simp [listStep, hi, hl]
  · simp [editorStep, submitStart, hp]

/-- C10 counterexample: the stored value `"0.5"` is numeric and
positive, so both guards accept it and the page size becomes 1/2 — the
claimed invariant `page_size ≥ 1` fails (only strict positivity
holds). -/
theorem C10_fractional_counterexample :
    getPageSize (some "0.5") = mkRat 1 2
    ∧ ¬ (1 ≤ getPageSize (some "0.5"))
    ∧ (listStep (initListState none) (ListEvent.changePageSize (mkRat 1 2))).pageSize = mkRat 1 2
    ∧ ¬ (1 ≤ (listStep (initListState none) (ListEvent.changePageSize (mkRat 1 2))).pageSize) := by
  decide

/-- C10 (amended): loading the persisted page size yields the default
10 whenever the stored value is missing, non-numeric, or ≤ 0; a
page-size input change to a value ≤ 0 is ignored, leaving the state
unchanged; hence the page size of every reachable list state — and the
`page_size` of every request built from one — is strictly positive
(though not necessarily ≥ 1). -/
theorem C10_page_size_invariant (stored : Option String) (evs : List ListEvent) :
    getPageSize none = 10
    ∧ (∀ st : String, jsNumber st = none → getPageSize (some st) = 10)
    ∧ (∀ (st : String) (q : ℚ), jsNumber st = some q → q ≤ 0 → getPageSize (some st) = 10)
    ∧ (∀ (s : ListState) (q : ℚ), q ≤ 0 → listStep s (ListEvent.changePageSize q) = s)
    ∧ 0 < (runList (initListState stored) evs).pageSize
    ∧ 0 < (buildListRequest (runList (initListState stored) evs)).page_size := by
  refine ⟨rfl, fun st h => ?_, fun st q h hq => ?_, fun s q hq => ?_,
    pageSize_pos_run stored evs, pageSize_pos_run stored evs⟩
  · have hred : getPageSize (some st) =
        (match jsNumber st with
          | none => (10 : ℚ)
          | some q => if q ≤ 0 then 10 else q) := rfl
    rw [hred, h]
  · have hred : getPageSize (some st) =
        (match jsNumber st with
          | none => (10 : ℚ)
          | some q => if q ≤ 0 then 10 else q) := rfl
    rw [hred, h]
    simp [hq]
  · simp [listStep, hq]
